import Mathlib

/-!
Verification of the `rpi.gpio` component/state layer.

The Python source (`src/rpi/gpio/__init__.py`, `lights.py`, `motors.py`,
`sensors.py`) is shallowly embedded below:

* pure value computations become Lean functions;
* stateful methods become functions from the object (plus any shared class
  state) to the updated object, together with the observable actions the call
  performed (events fired, hardware writes, thread operations);
* fallible Python code (raised exceptions) returns `Except PyError`;
* the Clock's two-thread start/stop protocol is embedded as a deterministic
  scheduled transition system: each lock-guarded region of the source is one
  atomic step, and a schedule (a list of thread choices) drives the
  interleaving.
-/

/-- Python exception kinds that the embedded code can raise. `valueError` is
the explicit `raise ValueError(...)` guard; `attributeError` is a failed
attribute access (e.g. `None.join()` or `other.running` on an object without
a `running` attribute); `keyError` is a failed dictionary lookup. -/
inductive PyError where
  | valueError
  | attributeError
  | keyError
deriving DecidableEq, Repr

/-- A display character: Python `Union[int, str]`. Python `==` between an
`int` and a `str` is `False`, which the derived equality reproduces. -/
inductive PyChar where
  | pint (n : Int)
  | pstr (s : String)
deriving DecidableEq, Repr

/-! ## The base `Component` contract (`__init__.py`, class `Component`)

A component holds a current state and an append-only list of
(optional trigger predicate, event) registrations. Event callbacks are opaque
to the component; we identify them by `Nat` ids and observe the list of ids
fired, in order. State equality is the per-kind `__eq__`, passed in as
`eqv` (the source dispatches dynamically via `state != self.state`). -/

structure Component (σ : Type) where
  state : σ
  trigger_events : List (Option (σ → Bool) × Nat)

/-- `Component.get_state`: returns the committed state, no side effects. -/
def Component.get_state {σ : Type} (c : Component σ) : σ :=
  c.state

/-- `Component.on`: appends a registration. -/
def Component.on {σ : Type} (c : Component σ) (trigger : Option (σ → Bool))
    (event : Nat) : Component σ :=
  { c with trigger_events := c.trigger_events ++ [(trigger, event)] }

/-- The events fired by the base `set_state` loop
(`for trigger, event in self.trigger_events: if trigger is None or
trigger(self.state): event()`), where `s` is the already-committed new
state. -/
def firedEvents {σ : Type} (regs : List (Option (σ → Bool) × Nat)) (s : σ) :
    List Nat :=
  regs.filterMap (fun te =>
    match te.1 with
    | none => some te.2
    | some p => if p s then some te.2 else none)

/-- `Component.set_state`: if `state != self.state` (i.e. the per-kind
equality `eqv` is false), commit the new state and fire matching events on
the new state; otherwise do nothing. Returns the updated component and the
ids of the events fired, in firing order. -/
def Component.set_state {σ : Type} (eqv : σ → σ → Bool) (c : Component σ)
    (s : σ) : Component σ × List Nat :=
  if eqv s c.state then (c, [])
  else ({ c with state := s }, firedEvents c.trigger_events s)

/-- C1: for every component and every state `s` equal by value to the
component's current state, `set_state s` fires no registered event, leaves
`get_state` unchanged, and performs no commit (the component is returned
untouched). -/
theorem set_state_noop_on_equal {σ : Type} (eqv : σ → σ → Bool)
    (c : Component σ) (s : σ) (h : eqv s c.state = true) :
    (Component.set_state eqv c s).2 = [] ∧
    (Component.set_state eqv c s).1.get_state = c.get_state ∧
    (Component.set_state eqv c s).1 = c := by
  simp [Component.set_state, h]

/-- Value equality of `Clock.State` (`running == other.running and
self.tick == other.tick`), used here to instantiate the generic base
contract at a concrete state kind. -/
def clockValEq (a b : Bool × Nat) : Bool :=
  a.1 == b.1 && a.2 == b.2

/-- Witness for C1 at a concrete clock-state component with one
registration. -/
theorem set_state_noop_on_equal_witness :
    (Component.set_state clockValEq ⟨(false, 0), [(none, 7)]⟩ (false, 0)).2
      = [] :=
  (set_state_noop_on_equal clockValEq ⟨(false, 0), [(none, 7)]⟩ (false, 0)
    (by decide)).1

/-- C2: for every component with current state `s1` and every `s2` with
`eqv s2 s1 = false`, `set_state s2` stores `s2` and then fires, in
registration order, exactly the registrations whose trigger is absent or
evaluates true on the new state; each such registration fires exactly once
and registrations whose predicate is false do not fire. -/
theorem set_state_change_notifies {σ : Type} (eqv : σ → σ → Bool)
    (c : Component σ) (s₂ : σ) (h : eqv s₂ c.state = false) :
    (Component.set_state eqv c s₂).1.get_state = s₂ ∧
    (Component.set_state eqv c s₂).2 = firedEvents c.trigger_events s₂ ∧
    firedEvents c.trigger_events s₂ =
      (c.trigger_events.filter (fun te =>
        match te.1 with
        | none => true
        | some p => p s₂)).map (fun te => te.2) := by
  refine ⟨?_, ?_, ?_⟩
  · simp [Component.set_state, h, Component.get_state]
  · simp [Component.set_state, h]
  · induction c.trigger_events with
    | nil => rfl
    | cons te rest ih =>
      cases hte : te.1 with
      | none => simp [firedEvents, List.filterMap, hte, List.filter] at ih ⊢
                exact ih
      | some p =>
        cases hp : p s₂ with
        | true => simp [firedEvents, List.filterMap, hte, hp, List.filter]
                  at ih ⊢
                  exact ih
        | false => simp [firedEvents, List.filterMap, hte, hp, List.filter]
                   at ih ⊢
                   exact ih

/-- Witness for C2: clock-state component, two registrations (a trigger-less
one and an always-false one); the trigger-less event fires exactly once. -/
theorem set_state_change_notifies_witness :
    (Component.set_state clockValEq
      ⟨(false, 0), [(none, 1), (some (fun _ => false), 2)]⟩ (true, 0)).2
      = [1] := by
  have h := set_state_change_notifies clockValEq
    ⟨(false, 0), [(none, 1), (some (fun _ => false), 2)]⟩ (true, 0) (by decide)
  rw [h.2.1]
  rfl

/-! ## The `Clock` (`__init__.py`, class `Clock`)

`Clock.__run__` and `Clock.stop` form a two-thread protocol over the shared
`self.state` reference, serialized by `self.state_lock`. We embed it as a
deterministic transition system:

* State objects live on an explicit heap (`List ClockStateV`, address =
  index); `deepcopy` allocates a fresh cell; `self.state = ...` moves the
  component's `addr`; `self.state.running = False` (in `stop`) overwrites the
  committed cell in place.
* Each lock-guarded region of the source is one atomic step (the lock makes
  these regions indivisible; the sleeps sit between them). The run thread's
  regions are the reset commit, the per-iteration tick-or-exit check, and the
  final commit; the stop thread's are the stop request and (after the lock is
  released) the join.
* A schedule (`List Bool`; `true` = run thread, `false` = stop caller) picks
  which thread performs its next atomic region. A thread that is blocked or
  finished leaves the configuration unchanged.
* The trace records each actual state commit (a `set_state` call that found
  the new state unequal) and the return of `stop()`.
-/

/-- The value of a `Clock.State` object: a running flag and a tick count. -/
structure ClockStateV where
  running : Bool
  tick : Nat
deriving DecidableEq, Repr

/-- Program counter of the `__run__` thread: before the reset commit, in the
tick loop, before the final commit, or exited. -/
inductive RunPC where
  | reset
  | loop
  | final
  | done
deriving DecidableEq, Repr

/-- Program counter of the `stop()` caller: not yet called, blocked in
`run_thread.join()`, or returned. -/
inductive StopPC where
  | idle
  | joining
  | returned
deriving DecidableEq, Repr

/-- Observable events of the clock protocol. -/
inductive CEvent where
  | commit (s : ClockStateV)
  | stopRet
deriving DecidableEq, Repr

/-- A configuration of the two-thread clock protocol. -/
structure ClockCfg where
  heap : List ClockStateV
  addr : Nat
  runPC : RunPC
  stopPC : StopPC
  trace : List CEvent
deriving DecidableEq, Repr

/-- The value of the component's committed `self.state`. -/
def committed (c : ClockCfg) : ClockStateV :=
  c.heap.getD c.addr ⟨false, 0⟩

/-- `new_state = deepcopy(self.state); <mutate copy>; self.set_state(new_state)`:
allocate the resulting value as a fresh cell, then run the base `set_state`
(commit and record the commit only if the value differs; `Clock.State.__eq__`
compares `running` and `tick`, i.e. whole-value equality). -/
def commitState (c : ClockCfg) (v : ClockStateV) : ClockCfg :=
  if v = committed c then
    { c with heap := c.heap ++ [v] }
  else
    { c with heap := c.heap ++ [v], addr := c.heap.length,
             trace := c.trace ++ [CEvent.commit v] }

/-- One atomic lock-guarded region of the `__run__` thread. -/
def stepRun (c : ClockCfg) : ClockCfg :=
  match c.runPC with
  | RunPC.reset =>
      -- with self.state_lock: copy; running = True; tick = 0; set_state
      { commitState c { committed c with running := true, tick := 0 } with
          runPC := RunPC.loop }
  | RunPC.loop =>
      -- with self.state_lock: if running: copy; tick += 1; set_state
      --                       else: loop = False
      if (committed c).running then
        commitState c { committed c with tick := (committed c).tick + 1 }
      else
        { c with runPC := RunPC.final }
  | RunPC.final =>
      -- with self.state_lock: copy; running = False; set_state
      { commitState c { committed c with running := false } with
          runPC := RunPC.done }
  | RunPC.done => c

/-- One atomic region of the `stop()` caller: first the lock-guarded request
(`if self.state.running: self.state.running = False else: warn` — an
in-place write to the committed cell, no allocation, no commit), then the
join, which completes only once the run thread has exited. -/
def stepStop (c : ClockCfg) : ClockCfg :=
  match c.stopPC with
  | StopPC.idle =>
      if (committed c).running then
        { c with
            heap := c.heap.set c.addr { committed c with running := false },
            stopPC := StopPC.joining }
      else
        { c with stopPC := StopPC.joining }
  | StopPC.joining =>
      if c.runPC = RunPC.done then
        { c with trace := c.trace ++ [CEvent.stopRet],
                 stopPC := StopPC.returned }
      else c
  | StopPC.returned => c

/-- One scheduled step: `true` runs the loop thread, `false` the stopper. -/
def clockStep (b : Bool) (c : ClockCfg) : ClockCfg :=
  if b then stepRun c else stepStop c

/-- Run a whole schedule. -/
def runSched : List Bool → ClockCfg → ClockCfg
  | [], c => c
  | b :: rest, c => runSched rest (clockStep b c)

/-- The configuration right after `start()` spawned the run thread on a
freshly constructed clock (`Clock.State(running=False, tick=0)`). -/
def clockInit : ClockCfg :=
  { heap := [⟨false, 0⟩], addr := 0, runPC := RunPC.reset,
    stopPC := StopPC.idle, trace := [] }

/-- The tick values of the committed states, in commit order. -/
def commitTicks (tr : List CEvent) : List Nat :=
  tr.filterMap (fun e =>
    match e with
    | CEvent.commit s => some s.tick
    | CEvent.stopRet => none)

/-- `commitTicks` ignores a trailing `stopRet`. -/
theorem commitTicks_append_stopRet (tr : List CEvent) :
    commitTicks (tr ++ [CEvent.stopRet]) = commitTicks tr := by
  simp [commitTicks, List.filterMap_append, List.filterMap]

/-- `commitTicks` appends the tick of a trailing commit. -/
theorem commitTicks_append_commit (tr : List CEvent) (s : ClockStateV) :
    commitTicks (tr ++ [CEvent.commit s]) = commitTicks tr ++ [s.tick] := by
  simp [commitTicks, List.filterMap_append, List.filterMap]

/-- Invariant of the clock protocol, preserved by every scheduled step. -/
structure ClockInv (c : ClockCfg) : Prop where
  addrLt : c.addr < c.heap.length
  resetCase : c.runPC = RunPC.reset → committed c = ⟨false, 0⟩ ∧ c.trace = []
  ticksCase : c.runPC ≠ RunPC.reset →
    commitTicks c.trace = List.range ((committed c).tick + 1)
  stoppedCase : c.runPC = RunPC.final ∨ c.runPC = RunPC.done →
    (committed c).running = false
  retCase : c.stopPC = StopPC.returned →
    c.runPC = RunPC.done ∧
    ∃ pre, c.trace = pre ++ [CEvent.stopRet] ∧ CEvent.stopRet ∉ pre
  noRet : c.stopPC ≠ StopPC.returned → CEvent.stopRet ∉ c.trace

theorem clockInv_init : ClockInv clockInit := by
  refine ⟨?_, ?_, ?_, ?_, ?_, ?_⟩ <;> simp [clockInit, committed]

theorem clockInv_stepRun (c : ClockCfg) (h : ClockInv c) :
    ClockInv (stepRun c) := by
  cases hr : c.runPC with
  | reset =>
    obtain ⟨hcom, htr⟩ := h.resetCase hr
    have hpc : (stepRun c).runPC = RunPC.loop := by
      simp [stepRun, hr, commitState, hcom]
    have hsp : (stepRun c).stopPC = c.stopPC := by
      simp [stepRun, hr, commitState, hcom]
    have htrace : (stepRun c).trace = c.trace ++ [CEvent.commit ⟨true, 0⟩] := by
      simp [stepRun, hr, commitState, hcom]
    have hstep : stepRun c =
        { heap := c.heap ++ [⟨true, 0⟩], addr := c.heap.length,
          runPC := RunPC.loop, stopPC := c.stopPC,
          trace := c.trace ++ [CEvent.commit ⟨true, 0⟩] } := by
      simp [stepRun, hr, commitState, hcom]
    have hcomm : committed (stepRun c) = ⟨true, 0⟩ := by
      rw [hstep]
      simp [committed, List.getD]
    have haddr : (stepRun c).addr < (stepRun c).heap.length := by
      simp [stepRun, hr, commitState, hcom]
    refine ⟨haddr, ?_, ?_, ?_, ?_, ?_⟩
    · intro h'; rw [hpc] at h'; simp at h'
    · intro _
      rw [htrace, hcomm, commitTicks_append_commit, htr]
      decide
    · intro hor; rcases hor with h' | h' <;> rw [hpc] at h' <;> simp at h'
    · intro h'
      rw [hsp] at h'
      have h1 := (h.retCase h').1
      rw [hr] at h1
      simp at h1
    · intro h'
      rw [hsp] at h'
      rw [htrace]
      simp
      exact h.noRet h'
  | loop =>
    have hticks := h.ticksCase (by rw [hr]; simp)
    rcases hsc : committed c with ⟨r, t⟩
    rw [hsc] at hticks
    cases r with
    | true =>
      have hpc : (stepRun c).runPC = RunPC.loop := by
        simp [stepRun, hr, hsc, commitState]
      have hsp : (stepRun c).stopPC = c.stopPC := by
        simp [stepRun, hr, hsc, commitState]
      have htrace : (stepRun c).trace
          = c.trace ++ [CEvent.commit ⟨true, t + 1⟩] := by
        simp [stepRun, hr, hsc, commitState]
      have hstep : stepRun c =
          { heap := c.heap ++ [⟨true, t + 1⟩], addr := c.heap.length,
            runPC := RunPC.loop, stopPC := c.stopPC,
            trace := c.trace ++ [CEvent.commit ⟨true, t + 1⟩] } := by
        simp [stepRun, hr, hsc, commitState]
      have hcomm : committed (stepRun c) = ⟨true, t + 1⟩ := by
        rw [hstep]
        simp [committed, List.getD]
      have haddr : (stepRun c).addr < (stepRun c).heap.length := by
        simp [stepRun, hr, hsc, commitState]
      refine ⟨haddr, ?_, ?_, ?_, ?_, ?_⟩
      · intro h'; rw [hpc] at h'; simp at h'
      · intro _
        rw [htrace, hcomm, commitTicks_append_commit, hticks]
        simp [List.range_succ]
      · intro hor; rcases hor with h' | h' <;> rw [hpc] at h' <;> simp at h'
      · intro h'
        rw [hsp] at h'
        have h1 := (h.retCase h').1
        rw [hr] at h1
        simp at h1
      · intro h'
        rw [hsp] at h'
        rw [htrace]
        simp
        exact h.noRet h'
    | false =>
      have hstep : stepRun c = { c with runPC := RunPC.final } := by
        simp [stepRun, hr, hsc]
      have hcomm : committed (stepRun c) = committed c := by rw [hstep]; rfl
      refine ⟨?_, ?_, ?_, ?_, ?_, ?_⟩
      · rw [hstep]; exact h.addrLt
      · intro h'; rw [hstep] at h'; simp at h'
      · intro _
        rw [hcomm, hstep]
        rw [hsc]
        exact hticks
      · intro _
        rw [hcomm, hsc]
      · intro h'
        rw [hstep] at h'
        simp at h'
        have h1 := (h.retCase h').1
        rw [hr] at h1
        simp at h1
      · intro h'
        rw [hstep] at h' ⊢
        simp at h' ⊢
        exact h.noRet h'
  | final =>
    have hrunf := h.stoppedCase (Or.inl hr)
    rcases hsc : committed c with ⟨r, t⟩
    rw [hsc] at hrunf
    simp at hrunf
    subst hrunf
    have hstep : stepRun c =
        { c with heap := c.heap ++ [⟨false, t⟩], runPC := RunPC.done } := by
      simp [stepRun, hr, hsc, commitState]
    have hcomm : committed (stepRun c) = committed c := by
      rw [hstep]
      simp [committed, List.getD, List.getElem?_append, h.addrLt]
    refine ⟨?_, ?_, ?_, ?_, ?_, ?_⟩
    · rw [hstep]
      simp
      exact Nat.lt_succ_of_lt h.addrLt
    · intro h'; rw [hstep] at h'; simp at h'
    · intro _
      rw [hcomm, hstep]
      exact h.ticksCase (by rw [hr]; simp)
    · intro _
      rw [hcomm, hsc]
    · intro h'
      rw [hstep] at h'
      simp at h'
      have h1 := (h.retCase h').1
      rw [hr] at h1
      simp at h1
    · intro h'
      rw [hstep] at h' ⊢
      simp at h' ⊢
      exact h.noRet h'
  | done =>
    have hstep : stepRun c = c := by simp [stepRun, hr]
    rw [hstep]
    exact h

theorem clockInv_stepStop (c : ClockCfg) (h : ClockInv c) :
    ClockInv (stepStop c) := by
  cases hs : c.stopPC with
  | idle =>
    rcases hsc : committed c with ⟨r, t⟩
    cases r with
    | true =>
      have hstep : stepStop c =
          { c with heap := c.heap.set c.addr ⟨false, t⟩,
                   stopPC := StopPC.joining } := by
        simp [stepStop, hs, hsc]
      have hcomm : committed (stepStop c) = ⟨false, t⟩ := by
        rw [hstep]
        simp [committed, List.getD, h.addrLt]
      refine ⟨?_, ?_, ?_, ?_, ?_, ?_⟩
      · rw [hstep]; simp; exact h.addrLt
      · intro h'
        rw [hstep] at h'
        simp at h'
        have := (h.resetCase h').1
        rw [hsc] at this
        simp at this
      · intro h'
        rw [hstep] at h'
        simp at h'
        have hticks := h.ticksCase h'
        rw [hsc] at hticks
        rw [hcomm, hstep]
        exact hticks
      · intro _
        rw [hcomm]
      · intro h'
        rw [hstep] at h'
        simp at h'
      · intro _
        rw [hstep]
        simp
        exact h.noRet (by rw [hs]; simp)
    | false =>
      have hstep : stepStop c = { c with stopPC := StopPC.joining } := by
        simp [stepStop, hs, hsc]
      have hcomm : committed (stepStop c) = committed c := by rw [hstep]; rfl
      refine ⟨?_, ?_, ?_, ?_, ?_, ?_⟩
      · rw [hstep]; exact h.addrLt
      · intro h'
        rw [hstep] at h'
        simp at h'
        rw [hcomm, hstep]
        exact h.resetCase h'
      · intro h'
        rw [hstep] at h'
        simp at h'
        rw [hcomm, hstep]
        exact h.ticksCase h'
      · intro h'
        rw [hstep] at h'
        simp at h'
        rw [hcomm]
        exact h.stoppedCase h'
      · intro h'
        rw [hstep] at h'
        simp at h'
      · intro _
        rw [hstep]
        simp
        exact h.noRet (by rw [hs]; simp)
  | joining =>
    by_cases hd : c.runPC = RunPC.done
    · have hstep : stepStop c =
          { c with trace := c.trace ++ [CEvent.stopRet],
                   stopPC := StopPC.returned } := by
        simp [stepStop, hs, hd]
      have hcomm : committed (stepStop c) = committed c := by rw [hstep]; rfl
      refine ⟨?_, ?_, ?_, ?_, ?_, ?_⟩
      · rw [hstep]; exact h.addrLt
      · intro h'
        rw [hstep] at h'
        simp at h'
        rw [hd] at h'
        simp at h'
      · intro _
        rw [hcomm, hstep]
        simp only [commitTicks_append_stopRet]
        exact h.ticksCase (by rw [hd]; simp)
      · intro _
        rw [hcomm]
        exact h.stoppedCase (Or.inr hd)
      · intro _
        refine ⟨?_, c.trace, ?_, ?_⟩
        · rw [hstep]; simpa using hd
        · rw [hstep]
        · exact h.noRet (by rw [hs]; simp)
      · intro h'
        rw [hstep] at h'
        simp at h'
    · have hstep : stepStop c = c := by simp [stepStop, hs, hd]
      rw [hstep]
      exact h
  | returned =>
    have hstep : stepStop c = c := by simp [stepStop, hs]
    rw [hstep]
    exact h

theorem clockInv_clockStep (b : Bool) (c : ClockCfg) (h : ClockInv c) :
    ClockInv (clockStep b c) := by
  cases b with
  | true => exact clockInv_stepRun c h
  | false => exact clockInv_stepStop c h

theorem clockInv_runSched (sched : List Bool) (c : ClockCfg)
    (h : ClockInv c) : ClockInv (runSched sched c) := by
  induction sched generalizing c with
  | nil => exact h
  | cons b rest ih => exact ih (clockStep b c) (clockInv_clockStep b c h)

/-- Once the committed running flag is false and the run thread is past its
reset region, no step can ever commit again: the flag can only be set by the
reset region, the tick region requires it, and the final region's commit is a
no-op (the new value equals the committed one). -/
structure ClockFrozen (c : ClockCfg) : Prop where
  addrLt : c.addr < c.heap.length
  notRunning : (committed c).running = false
  notReset : c.runPC ≠ RunPC.reset

theorem clockFrozen_clockStep (b : Bool) (c : ClockCfg) (h : ClockFrozen c) :
    ClockFrozen (clockStep b c) ∧
    commitTicks (clockStep b c).trace = commitTicks c.trace := by
  rcases hsc : committed c with ⟨r, t⟩
  have hr0 : r = false := by
    have := h.notRunning
    rw [hsc] at this
    simpa using this
  subst hr0
  cases b with
  | true =>
    cases hr : c.runPC with
    | reset => exact absurd hr h.notReset
    | loop =>
      have hstep : clockStep true c = { c with runPC := RunPC.final } := by
        simp [clockStep, stepRun, hr, hsc]
      rw [hstep]
      exact ⟨⟨h.addrLt, by rw [show committed { c with runPC := RunPC.final }
        = committed c from rfl, hsc], by simp⟩, rfl⟩
    | final =>
      have hstep : clockStep true c =
          { c with heap := c.heap ++ [⟨false, t⟩], runPC := RunPC.done } := by
        simp [clockStep, stepRun, hr, hsc, commitState]
      have hcm : committed (clockStep true c) = committed c := by
        rw [hstep]
        simp [committed, List.getD, List.getElem?_append, h.addrLt]
      refine ⟨⟨?_, ?_, ?_⟩, ?_⟩
      · rw [hstep]
        simp
        exact Nat.lt_succ_of_lt h.addrLt
      · rw [hcm, hsc]
      · rw [hstep]
        simp
      · rw [hstep]
    | done =>
      have hstep : clockStep true c = c := by simp [clockStep, stepRun, hr]
      rw [hstep]
      exact ⟨h, rfl⟩
  | false =>
    cases hs : c.stopPC with
    | idle =>
      have hstep : clockStep false c = { c with stopPC := StopPC.joining } := by
        simp [clockStep, stepStop, hs, hsc]
      rw [hstep]
      exact ⟨⟨h.addrLt, by rw [show committed { c with stopPC := StopPC.joining }
        = committed c from rfl, hsc], h.notReset⟩, rfl⟩
    | joining =>
      by_cases hd : c.runPC = RunPC.done
      · have hstep : clockStep false c =
            { c with trace := c.trace ++ [CEvent.stopRet], stopPC := StopPC.returned } := by
          simp [clockStep, stepStop, hs, hd]
        have hcm : committed (clockStep false c) = committed c := by
          rw [hstep]
          rfl
        have htr : (clockStep false c).trace = c.trace ++ [CEvent.stopRet] := by
          rw [hstep]
        refine ⟨⟨?_, ?_, ?_⟩, ?_⟩
        · rw [hstep]
          exact h.addrLt
        · rw [hcm, hsc]
        · rw [hstep]
          exact h.notReset
        · rw [htr]
          exact commitTicks_append_stopRet c.trace
      · have hstep : clockStep false c = c := by
          simp [clockStep, stepStop, hs, hd]
        rw [hstep]
        exact ⟨h, rfl⟩
    | returned =>
      have hstep : clockStep false c = c := by simp [clockStep, stepStop, hs]
      rw [hstep]
      exact ⟨h, rfl⟩

theorem clockFrozen_runSched (sched : List Bool) (c : ClockCfg)
    (h : ClockFrozen c) :
    commitTicks (runSched sched c).trace = commitTicks c.trace := by
  induction sched generalizing c with
  | nil => rfl
  | cons b rest ih =>
    have hb := clockFrozen_clockStep b c h
    calc commitTicks (runSched rest (clockStep b c)).trace
        = commitTicks (clockStep b c).trace := ih (clockStep b c) hb.1
      _ = commitTicks c.trace := hb.2

/-- After `stop()` has returned and the run thread has exited, the
configuration is quiescent: every further scheduled step is the identity. -/
theorem returned_clockStep (b : Bool) (c : ClockCfg)
    (hret : c.stopPC = StopPC.returned) (hdone : c.runPC = RunPC.done) :
    clockStep b c = c := by
  cases b with
  | true => simp [clockStep, stepRun, hdone]
  | false => simp [clockStep, stepStop, hret]

theorem returned_runSched (sched : List Bool) (c : ClockCfg)
    (hret : c.stopPC = StopPC.returned) (hdone : c.runPC = RunPC.done) :
    runSched sched c = c := by
  induction sched with
  | nil => rfl
  | cons b rest ih =>
    rw [runSched, returned_clockStep b c hret hdone]
    exact ih

/-- C3: in every interleaving of the started clock's loop thread with a
`stop()` call, (1) the sequence of tick values committed by the loop is
exactly `0, 1, 2, ...` (strictly increasing from 0); (2) once `stop()` has
returned, the trace ends with the stop return and no further step changes
the configuration, so no tick transition is committed after `stop()`
returns; (3) as soon as a stop request has taken effect (the committed
running flag is false and the loop is past its reset region), no further
scheduling can commit another tick. -/
theorem clock_ticks_monotone_and_stop_final (sched : List Bool) :
    (∃ n, commitTicks (runSched sched clockInit).trace = List.range n) ∧
    (CEvent.stopRet ∈ (runSched sched clockInit).trace →
      (∃ pre, (runSched sched clockInit).trace = pre ++ [CEvent.stopRet] ∧
        CEvent.stopRet ∉ pre) ∧
      ∀ sched', runSched sched' (runSched sched clockInit)
        = runSched sched clockInit) ∧
    ((committed (runSched sched clockInit)).running = false →
      (runSched sched clockInit).runPC ≠ RunPC.reset →
      ∀ sched',
        commitTicks (runSched sched' (runSched sched clockInit)).trace
          = commitTicks (runSched sched clockInit).trace) := by
  have hinv := clockInv_runSched sched clockInit clockInv_init
  refine ⟨?_, ?_, ?_⟩
  · by_cases hr : (runSched sched clockInit).runPC = RunPC.reset
    · exact ⟨0, by rw [(hinv.resetCase hr).2]; rfl⟩
    · exact ⟨(committed (runSched sched clockInit)).tick + 1,
        hinv.ticksCase hr⟩
  · intro hmem
    have hret : (runSched sched clockInit).stopPC = StopPC.returned := by
      by_contra hne
      exact absurd hmem (hinv.noRet hne)
    obtain ⟨hdone, pre, hpre, hnotin⟩ := hinv.retCase hret
    exact ⟨⟨pre, hpre, hnotin⟩,
      fun sched' => returned_runSched sched' _ hret hdone⟩
  · intro h1 h2 sched'
    exact clockFrozen_runSched sched' _ ⟨hinv.addrLt, h1, h2⟩

/-- Witness for C3: the schedule "reset, one tick, stop request, loop exit,
final region, join" produces commits with ticks `[0, 1]` and a trace ending
in the stop return. -/
theorem clock_ticks_monotone_and_stop_final_witness :
    (∃ pre,
      (runSched [true, true, false, true, true, false] clockInit).trace
        = pre ++ [CEvent.stopRet] ∧ CEvent.stopRet ∉ pre) ∧
    commitTicks
      (runSched [true, true, false, true, true, false] clockInit).trace
        = List.range 2 :=
  ⟨((clock_ticks_monotone_and_stop_final
      [true, true, false, true, true, false]).2.1 (by decide)).1,
    by decide⟩

/-! ## C6: does any operation mutate a committed `State` in place?

`Clock.stop` executes `self.state.running = False`: an in-place write to the
very object the component holds as its current state, with no new
construction and no commit. The loop's own transitions, by contrast, always
`deepcopy` and commit a fresh object. -/

/-- C6 counterexample: start the clock and let the reset region commit
(`runSched [true]`), then perform the `stop()` request region. The committed
cell (same address) changes value from `running=true` to `running=false` —
the `State` object handed to the component as its current state is mutated
in place — and no commit event is recorded for this change. -/
theorem clock_stop_mutates_committed_state_in_place :
    (stepStop (runSched [true] clockInit)).addr
        = (runSched [true] clockInit).addr ∧
    (runSched [true] clockInit).heap.getD
        (runSched [true] clockInit).addr ⟨false, 0⟩ = ⟨true, 0⟩ ∧
    (stepStop (runSched [true] clockInit)).heap.getD
        (runSched [true] clockInit).addr ⟨false, 0⟩ = ⟨false, 0⟩ ∧
    (stepStop (runSched [true] clockInit)).trace
        = (runSched [true] clockInit).trace := by
  decide

/-- C6 (amended): every state commit performed by the clock's loop thread
constructs a fresh `State` value — a run-thread step only ever appends to the
heap, never overwriting an existing cell — while the `stop()` request region
never allocates and mutates at most the committed cell, in place. -/
theorem clock_commits_construct_fresh_states (c : ClockCfg) :
    (stepRun c).heap.take c.heap.length = c.heap ∧
    (stepStop c).heap.length = c.heap.length ∧
    ∀ i, i ≠ c.addr →
      (stepStop c).heap.getD i ⟨false, 0⟩ = c.heap.getD i ⟨false, 0⟩ := by
  refine ⟨?_, ?_, ?_⟩
  · cases hr : c.runPC with
    | reset =>
      simp only [stepRun, hr, commitState]
      split <;> simp [List.take_left]
    | loop =>
      simp only [stepRun, hr]
      split
      · simp only [commitState]
        split <;> simp [List.take_left]
      · simp [List.take_length]
    | final =>
      simp only [stepRun, hr, commitState]
      split <;> simp [List.take_left]
    | done => simp [stepRun, hr, List.take_length]
  · cases hs : c.stopPC with
    | idle =>
      simp only [stepStop, hs]
      split <;> simp
    | joining =>
      simp only [stepStop, hs]
      split <;> rfl
    | returned => simp [stepStop, hs]
  · intro i hi
    cases hs : c.stopPC with
    | idle =>
      simp only [stepStop, hs]
      split
      · simp [List.getD, List.getElem?_set_ne (Ne.symm hi)]
      · rfl
    | joining =>
      simp only [stepStop, hs]
      split <;> rfl
    | returned => simp [stepStop, hs]

/-- Witness for C6's amended theorem: concretely, the stop request after one
run step leaves heap cell 0 (a non-committed address) untouched. -/
theorem clock_commits_construct_fresh_states_witness :
    (stepStop (runSched [true] clockInit)).heap.getD 0 ⟨false, 0⟩
      = (runSched [true] clockInit).heap.getD 0 ⟨false, 0⟩ :=
  (clock_commits_construct_fresh_states (runSched [true] clockInit)).2.2 0
    (by decide)

/-! ## C4: lifecycle misuse of `Clock.start` / `Clock.stop`

Direct functional embedding of the two method bodies. `run_thread` starts as
`None` (`Clock.__init__`) and is only assigned by `start`. `stop` always
executes `self.run_thread.join()` after releasing the lock — on a
never-started clock this is `None.join()`, an `AttributeError`. -/

/-- Warnings and info messages logged by `Clock.start` / `Clock.stop`. -/
inductive LogMsg where
  | warnStartRunning
  | warnStopNotRunning
  | infoStoppedClock
deriving DecidableEq, Repr

/-- The clock fields `start`/`stop` touch: the committed state's flag and
tick, and the loop-thread handle. -/
structure ClockPy where
  running : Bool
  tick : Nat
  run_thread : Option Unit
deriving DecidableEq, Repr

/-- `Clock.start`: under the lock, warn if already running, else spawn the
loop thread. Returns the updated object and the log. -/
def Clock.startCall (c : ClockPy) : ClockPy × List LogMsg :=
  if c.running then (c, [LogMsg.warnStartRunning])
  else ({ c with run_thread := some () }, [])

/-- `Clock.stop`: under the lock, flip the running flag if running, else
warn; then `self.run_thread.join()` — which raises `AttributeError` when
`run_thread` is `None` — then log the stop. -/
def Clock.stopCall (c : ClockPy) : Except PyError (ClockPy × List LogMsg) :=
  let locked :=
    if c.running then ({ c with running := false }, ([] : List LogMsg))
    else (c, [LogMsg.warnStopNotRunning])
  match c.run_thread with
  | none => Except.error PyError.attributeError
  | some _ => Except.ok (locked.1, locked.2 ++ [LogMsg.infoStoppedClock])

/-- C4 evaluated: `start` on a running clock only warns (benign, no raise),
and `stop` on a started-then-stopped clock only warns (benign, no raise) —
but `stop` on a never-started clock (`run_thread = None`) raises
`AttributeError` from `None.join()` after logging, contradicting the claim
that it is a non-raising no-op. -/
theorem clock_lifecycle_misuse_eval :
    Clock.startCall { running := true, tick := 3, run_thread := some () }
      = ({ running := true, tick := 3, run_thread := some () },
         [LogMsg.warnStartRunning]) ∧
    Clock.stopCall { running := false, tick := 5, run_thread := some () }
      = Except.ok ({ running := false, tick := 5, run_thread := some () },
         [LogMsg.warnStopNotRunning, LogMsg.infoStoppedClock]) ∧
    Clock.stopCall { running := false, tick := 0, run_thread := none }
      = Except.error PyError.attributeError :=
  ⟨rfl, rfl, rfl⟩

/-! ## C5: cross-kind `State` equality

One tagged variant per concrete `State` kind in the repository, carrying the
fields its `__eq__` compares. (`LedBar.State` also stores the illuminated
`LED` object itself, but its `__eq__` compares only
`illuminated_led_index`, so only that field appears here. Python floats are
modeled as rationals.) Every kind except `Clock.State` begins its `__eq__`
with `if not isinstance(other, ...): raise ValueError(...)`;
`Clock.State.__eq__` has no such guard and goes straight to
`other.running`/`other.tick`, which on a different kind (none of which has a
`running` attribute) raises `AttributeError` instead. -/

inductive StateV where
  | clock (running : Bool) (tick : Nat)
  | led (is_on : Bool)   -- the source field `on` (a Lean keyword)
  | ledBar (illuminated_led_index : Option Nat)
  | multicoloredLED (r g b : ℚ)
  | sevenSegment (character : Option PyChar) (decimal_point : Bool)
  | fourDigit (character_0 : Option PyChar) (decimal_point_0 : Bool)
      (character_1 : Option PyChar) (decimal_point_1 : Bool)
      (character_2 : Option PyChar) (decimal_point_2 : Bool)
      (character_3 : Option PyChar) (decimal_point_3 : Bool)
  | thermistor (temperature_f : Option ℚ)
  | dcMotor (speed : Int)
deriving DecidableEq, Repr

/-- The concrete kind tag of a `StateV`. -/
inductive SKind where
  | clockK
  | ledK
  | ledBarK
  | multicoloredLEDK
  | sevenSegmentK
  | fourDigitK
  | thermistorK
  | dcMotorK
deriving DecidableEq, Repr

def kindOf : StateV → SKind
  | StateV.clock _ _ => SKind.clockK
  | StateV.led _ => SKind.ledK
  | StateV.ledBar _ => SKind.ledBarK
  | StateV.multicoloredLED _ _ _ => SKind.multicoloredLEDK
  | StateV.sevenSegment _ _ => SKind.sevenSegmentK
  | StateV.fourDigit _ _ _ _ _ _ _ _ => SKind.fourDigitK
  | StateV.thermistor _ => SKind.thermistorK
  | StateV.dcMotor _ => SKind.dcMotorK

/-- Dynamic dispatch of `a == b` to the concrete kind's `__eq__`, with each
row translated from that kind's source. -/
def stateEq : StateV → StateV → Except PyError Bool
  | StateV.clock running tick, o =>
      -- Clock.State.__eq__: no isinstance guard;
      -- `self.running == other.running and self.tick == other.tick`
      match o with
      | StateV.clock r2 t2 => Except.ok (running == r2 && tick == t2)
      | _ => Except.error PyError.attributeError
  | StateV.led is_on, o =>
      match o with
      | StateV.led o2 => Except.ok (is_on == o2)
      | _ => Except.error PyError.valueError
  | StateV.ledBar idx, o =>
      match o with
      | StateV.ledBar idx2 => Except.ok (idx == idx2)
      | _ => Except.error PyError.valueError
  | StateV.multicoloredLED r g b, o =>
      match o with
      | StateV.multicoloredLED r2 g2 b2 =>
          Except.ok (r == r2 && g == g2 && b == b2)
      | _ => Except.error PyError.valueError
  | StateV.sevenSegment ch dp, o =>
      match o with
      | StateV.sevenSegment ch2 dp2 => Except.ok (ch == ch2 && dp == dp2)
      | _ => Except.error PyError.valueError
  | StateV.fourDigit c0 d0 c1 d1 c2 d2 c3 d3, o =>
      match o with
      | StateV.fourDigit c0b d0b c1b d1b c2b d2b c3b d3b =>
          Except.ok (c0 == c0b && d0 == d0b && c1 == c1b && d1 == d1b &&
            c2 == c2b && d2 == d2b && c3 == c3b && d3 == d3b)
      | _ => Except.error PyError.valueError
  | StateV.thermistor tf, o =>
      match o with
      | StateV.thermistor tf2 => Except.ok (tf == tf2)
      | _ => Except.error PyError.valueError
  | StateV.dcMotor speed, o =>
      match o with
      | StateV.dcMotor s2 => Except.ok (speed == s2)
      | _ => Except.error PyError.valueError

/-- C5 counterexample: comparing a `Clock.State` to an `LED.State` fails
with `AttributeError` (the failed `other.running` access), not with the
type-mismatch `ValueError` guard; the two errors are distinct. -/
theorem clock_state_eq_cross_kind_attr_error :
    stateEq (StateV.clock false 0) (StateV.led false)
      = Except.error PyError.attributeError ∧
    PyError.attributeError ≠ PyError.valueError :=
  ⟨rfl, by decide⟩

/-- C5 (amended): equality across different concrete kinds always fails —
never a silent `false`, never success — but the failure kind differs: every
kind except `Clock.State` raises the explicit type-mismatch `ValueError`,
while `Clock.State` (whose `__eq__` has no kind guard) raises
`AttributeError`. -/
theorem state_eq_cross_kind_fails (a b : StateV) (h : kindOf a ≠ kindOf b) :
    (∃ e, stateEq a b = Except.error e) ∧
    (kindOf a ≠ SKind.clockK →
      stateEq a b = Except.error PyError.valueError) ∧
    (kindOf a = SKind.clockK →
      stateEq a b = Except.error PyError.attributeError) := by
  cases a <;> cases b <;>
    first
      | exact absurd rfl h
      | exact ⟨⟨PyError.attributeError, rfl⟩, fun hc => absurd rfl hc,
          fun _ => rfl⟩
      | exact ⟨⟨PyError.valueError, rfl⟩, fun _ => rfl,
          fun hc => by simp [kindOf] at hc⟩

/-- Witness for C5's amended theorem at a concrete cross-kind pair. -/
theorem state_eq_cross_kind_fails_witness :
    stateEq (StateV.led true) (StateV.dcMotor 0)
      = Except.error PyError.valueError :=
  (state_eq_cross_kind_fails (StateV.led true) (StateV.dcMotor 0)
    (by decide)).2.1 (by decide)

/-! ## `SevenSegmentLedShiftRegister` (`lights.py`)

The class-level dict `CHARACTER_SEGMENTS` is shared mutable state: its
values are list objects, and `set_state` does `segments =
self.CHARACTER_SEGMENTS[state.character]` followed (when the decimal point
is requested) by `segments.append(...)` — an in-place mutation of the list
stored in the dict, visible to all instances and all later calls. We thread
the dict through calls explicitly as an association list. -/

inductive Segment where
  | A
  | B
  | C
  | D
  | E
  | F
  | G
  | DECIMAL_POINT
deriving DecidableEq, Repr

/-- The class-level `CHARACTER_SEGMENTS` dict as initialized in the source. -/
def CHARACTER_SEGMENTS : List (PyChar × List Segment) :=
  [(PyChar.pint 0, [Segment.A, Segment.B, Segment.C, Segment.D, Segment.E,
      Segment.F]),
   (PyChar.pint 1, [Segment.B, Segment.C]),
   (PyChar.pint 2, [Segment.A, Segment.B, Segment.G, Segment.E, Segment.D]),
   (PyChar.pint 3, [Segment.A, Segment.B, Segment.G, Segment.C, Segment.D]),
   (PyChar.pint 4, [Segment.F, Segment.G, Segment.B, Segment.C]),
   (PyChar.pint 5, [Segment.A, Segment.F, Segment.G, Segment.C, Segment.D]),
   (PyChar.pint 6, [Segment.A, Segment.F, Segment.E, Segment.D, Segment.C,
      Segment.G]),
   (PyChar.pint 7, [Segment.A, Segment.B, Segment.C]),
   (PyChar.pint 8, [Segment.A, Segment.F, Segment.G, Segment.C, Segment.D,
      Segment.E, Segment.B]),
   (PyChar.pint 9, [Segment.A, Segment.F, Segment.G, Segment.B, Segment.C]),
   (PyChar.pstr "A", [Segment.A, Segment.F, Segment.E, Segment.G, Segment.B,
      Segment.C]),
   (PyChar.pstr "b", [Segment.F, Segment.E, Segment.G, Segment.C,
      Segment.D]),
   (PyChar.pstr "C", [Segment.A, Segment.F, Segment.E, Segment.D]),
   (PyChar.pstr "d", [Segment.B, Segment.C, Segment.G, Segment.E,
      Segment.D]),
   (PyChar.pstr "E", [Segment.A, Segment.F, Segment.E, Segment.D,
      Segment.G]),
   (PyChar.pstr "F", [Segment.F, Segment.E, Segment.A, Segment.G])]

/-- `SevenSegmentLedShiftRegister.State` value. -/
structure SevenSegState where
  character : Option PyChar
  decimal_point : Bool
deriving DecidableEq, Repr

/-- `SevenSegmentLedShiftRegister.State.__init__`: raises `ValueError` when
the character is not `None` and not a key of `CHARACTER_SEGMENTS`. -/
def SevenSegState.init (charSegs : List (PyChar × List Segment))
    (character : Option PyChar) (decimal_point : Bool) :
    Except PyError SevenSegState :=
  match character with
  | some ch =>
      if (charSegs.lookup ch).isSome then
        Except.ok ⟨some ch, decimal_point⟩
      else
        Except.error PyError.valueError
  | none => Except.ok ⟨none, decimal_point⟩

/-- The instance fields of a `SevenSegmentLedShiftRegister` that `set_state`
uses. -/
structure SevenSegObj where
  state : SevenSegState
  trigger_events : List (Option (SevenSegState → Bool) × Nat)
  bits : Nat
  segment_shift_register_output : Segment → Nat

/-- The integer written to the shift register:
`int(''.join(reversed(['0' if i in pins else '1' for i in range(bits)])), 2)`
— bit `i` (weight `2 ^ i`) is 0 when line `i` is in `pins` (segment on, the
register is active-low) and 1 otherwise. -/
def bitStringInt (bits : Nat) (pins : List Nat) : Nat :=
  ((List.range bits).map (fun i => if i ∈ pins then 0 else 2 ^ i)).sum

/-- Result of one `SevenSegmentLedShiftRegister.set_state` call: the
(possibly mutated) class-level dict, the component, the events fired, the
segment list rendered, and the integer written to the shift register. -/
structure SSResult where
  charSegs : List (PyChar × List Segment)
  comp : SevenSegObj
  fired : List Nat
  rendered : List Segment
  written : Nat

/-- `SevenSegmentLedShiftRegister.set_state`. Faithful to the source, which
never calls `super().set_state`: the committed state and the registrations
are left untouched and no event fires. `CHARACTER_SEGMENTS[state.character]`
raises `KeyError` for `None` or a missing key (unreachable when the state
came from the validating constructor); when `decimal_point` is set,
`segments.append(DECIMAL_POINT)` mutates the dict's stored list in place. -/
def SevenSegmentLedShiftRegister.set_state
    (charSegs : List (PyChar × List Segment)) (c : SevenSegObj)
    (s : SevenSegState) : Except PyError SSResult :=
  match s.character with
  | none => Except.error PyError.keyError
  | some ch =>
    match charSegs.lookup ch with
    | none => Except.error PyError.keyError
    | some segments =>
      let segs2 :=
        if s.decimal_point then segments ++ [Segment.DECIMAL_POINT]
        else segments
      let charSegs2 :=
        if s.decimal_point then
          charSegs.map (fun p =>
            if p.1 == ch then (p.1, p.2 ++ [Segment.DECIMAL_POINT]) else p)
        else charSegs
      let pins := segs2.map c.segment_shift_register_output
      Except.ok ⟨charSegs2, c, [], segs2, bitStringInt c.bits pins⟩

/-- `LED.State` value (`on` is a Lean keyword; the field is `is_on`). -/
structure LEDState where
  is_on : Bool
deriving DecidableEq, Repr

/-- `LED.State.__eq__` restricted to same-kind operands. -/
def ledValEq (a b : LEDState) : Bool :=
  a.is_on == b.is_on

/-- `LED.set_state`: runs the base commit-and-notify logic
(`super().set_state(state)`) and then pushes the level for the new state out
on the output pin (`(pin, level)`, `true` = HIGH). -/
def LED.set_state (output_pin : Nat) (reverse : Bool)
    (c : Component LEDState) (s : LEDState) :
    Component LEDState × List Nat × (Nat × Bool) :=
  let base := Component.set_state ledValEq c s
  let level :=
    if s.is_on then (if reverse then false else true)
    else (if reverse then true else false)
  (base.1, base.2, (output_pin, level))

/-- The segment-to-shift-register-line wiring used in concrete examples. -/
def segOutDefault : Segment → Nat
  | Segment.A => 0
  | Segment.B => 1
  | Segment.C => 2
  | Segment.D => 3
  | Segment.E => 4
  | Segment.F => 5
  | Segment.G => 6
  | Segment.DECIMAL_POINT => 7

/-- A concrete 8-bit `SevenSegmentLedShiftRegister` in its initial state
(`State(None, False)`) with one trigger-less registration. -/
def sevenSegExample : SevenSegObj :=
  { state := ⟨none, false⟩, trigger_events := [(none, 0)], bits := 8,
    segment_shift_register_output := segOutDefault }

/-- C7 evaluated at the failing input: `SevenSegmentLedShiftRegister` with
current state `(None, False)` and a registered trigger-less event receives
`set_state (5, no decimal point)`. Contrary to the claim, the call only
renders to the shift register: the component comes back unchanged (the old
state is still committed, so `get_state` does not return the new state) and
no event fires. By contrast, `LED.set_state` does run the base
commit-and-notify logic before writing the pin. -/
theorem sevenSeg_set_state_commits_nothing :
    SevenSegmentLedShiftRegister.set_state CHARACTER_SEGMENTS sevenSegExample
        ⟨some (PyChar.pint 5), false⟩
      = Except.ok ⟨CHARACTER_SEGMENTS, sevenSegExample, [],
          [Segment.A, Segment.F, Segment.G, Segment.C, Segment.D], 146⟩ ∧
    sevenSegExample.state = ⟨none, false⟩ ∧
    LED.set_state 11 false ⟨⟨false⟩, [(none, 3)]⟩ ⟨true⟩
      = (⟨⟨true⟩, [(none, 3)]⟩, [3], (11, true)) :=
  ⟨rfl, rfl, rfl⟩

/-! ## `FourDigitSevenSegmentLED` (`lights.py`) -/

/-- `FourDigitSevenSegmentLED.State` value. -/
structure FourDigitState where
  character_0 : Option PyChar
  decimal_point_0 : Bool
  character_1 : Option PyChar
  decimal_point_1 : Bool
  character_2 : Option PyChar
  decimal_point_2 : Bool
  character_3 : Option PyChar
  decimal_point_3 : Bool
deriving DecidableEq, Repr

/-- `FourDigitSevenSegmentLED.State.__init__`: the body only assigns the
eight fields — it performs no validation at all and cannot raise, whatever
the characters are. -/
def FourDigitState.init (c0 : Option PyChar) (d0 : Bool)
    (c1 : Option PyChar) (d1 : Bool) (c2 : Option PyChar) (d2 : Bool)
    (c3 : Option PyChar) (d3 : Bool) : Except PyError FourDigitState :=
  Except.ok ⟨c0, d0, c1, d1, c2, d2, c3, d3⟩

/-- `FourDigitSevenSegmentLED.State.get`: character/decimal pair of one LED,
`ValueError` on an index outside 0..3. -/
def FourDigitState.get (s : FourDigitState) (led_idx : Nat) :
    Except PyError (Option PyChar × Bool) :=
  if led_idx = 0 then Except.ok (s.character_0, s.decimal_point_0)
  else if led_idx = 1 then Except.ok (s.character_1, s.decimal_point_1)
  else if led_idx = 2 then Except.ok (s.character_2, s.decimal_point_2)
  else if led_idx = 3 then Except.ok (s.character_3, s.decimal_point_3)
  else Except.error PyError.valueError

/-- `FourDigitSevenSegmentLED.State.__eq__` restricted to same-kind
operands: all eight fields compared. -/
def fourDigitValEq (a b : FourDigitState) : Bool :=
  a == b

/-- Thread-level actions a `FourDigitSevenSegmentLED.set_state` call
performs, in order: event firings from the base commit, stop-signal and join
of the old refresh thread, and the start of the fresh refresh thread
(recorded with the aggregate `self.state` its target will drive). -/
inductive FDAction where
  | fire (event : Nat)
  | signalStop (tid : Nat)
  | joinThread (tid : Nat)
  | startThread (tid : Nat) (aggregate : FourDigitState)
deriving DecidableEq, Repr

/-- The instance fields of a `FourDigitSevenSegmentLED` that `set_state`
touches. `display_thread` is the running refresh thread's id, if any. -/
structure FourDigitObj where
  state : FourDigitState
  trigger_events : List (Option (FourDigitState → Bool) × Nat)
  display_thread : Option Nat
  run_display_thread : Bool

/-- `FourDigitSevenSegmentLED.stop_display_thread`: if a display thread
exists, clear the run flag and join it. -/
def FourDigitSevenSegmentLED.stop_display_thread (c : FourDigitObj) :
    FourDigitObj × List FDAction :=
  match c.display_thread with
  | some tid =>
      ({ c with run_display_thread := false },
       [FDAction.signalStop tid, FDAction.joinThread tid])
  | none => (c, [])

/-- `FourDigitSevenSegmentLED.set_state`: base commit-and-notify
(`super().set_state(state)`), then `stop_display_thread()`, then start a
fresh display thread (`fresh_tid` names the newly spawned thread; its target
reads the committed `self.state`). -/
def FourDigitSevenSegmentLED.set_state (c : FourDigitObj) (fresh_tid : Nat)
    (s : FourDigitState) : FourDigitObj × List FDAction :=
  let base :=
    if fourDigitValEq s c.state then (c, ([] : List Nat))
    else ({ c with state := s }, firedEvents c.trigger_events s)
  let stopped := FourDigitSevenSegmentLED.stop_display_thread base.1
  let c3 :=
    { stopped.1 with run_display_thread := true, display_thread := some fresh_tid }
  (c3, base.2.map FDAction.fire ++ stopped.2 ++
    [FDAction.startThread fresh_tid c3.state])

/-- C8: a `set_state` call with a changed aggregate commits the new
aggregate via the base contract (events fire per the base rules), signals
and joins any existing refresh thread within the call (the old thread never
outlives the call), and finally starts a fresh refresh thread driving
exactly the freshly committed aggregate. The returned action list is the
call's complete, ordered effect. -/
theorem fourDigit_set_state_replaces_and_restarts (c : FourDigitObj)
    (tid : Nat) (s : FourDigitState)
    (h : fourDigitValEq s c.state = false) :
    (FourDigitSevenSegmentLED.set_state c tid s).1.state = s ∧
    (FourDigitSevenSegmentLED.set_state c tid s).1.display_thread
      = some tid ∧
    (FourDigitSevenSegmentLED.set_state c tid s).1.run_display_thread
      = true ∧
    (FourDigitSevenSegmentLED.set_state c tid s).2
      = (firedEvents c.trigger_events s).map FDAction.fire ++
        (match c.display_thread with
         | some t => [FDAction.signalStop t, FDAction.joinThread t]
         | none => []) ++
        [FDAction.startThread tid s] := by
  cases hdt : c.display_thread with
  | none =>
    refine ⟨?_, ?_, ?_, ?_⟩ <;>
      simp [FourDigitSevenSegmentLED.set_state,
        FourDigitSevenSegmentLED.stop_display_thread, h, hdt]
  | some t =>
    refine ⟨?_, ?_, ?_, ?_⟩ <;>
      simp [FourDigitSevenSegmentLED.set_state,
        FourDigitSevenSegmentLED.stop_display_thread, h, hdt]

/-- Witness for C8 at a concrete display whose refresh thread 0 is running:
the call joins thread 0 and starts thread 1 on the new aggregate. -/
theorem fourDigit_set_state_replaces_and_restarts_witness :
    (FourDigitSevenSegmentLED.set_state
      ⟨⟨none, false, none, false, none, false, none, false⟩, [(none, 4)],
        some 0, true⟩ 1
      ⟨some (PyChar.pint 1), false, some (PyChar.pint 2), false,
        some (PyChar.pint 3), false, some (PyChar.pint 4), true⟩).2
    = [FDAction.fire 4, FDAction.signalStop 0, FDAction.joinThread 0,
       FDAction.startThread 1
         ⟨some (PyChar.pint 1), false, some (PyChar.pint 2), false,
          some (PyChar.pint 3), false, some (PyChar.pint 4), true⟩] := by
  rw [(fourDigit_set_state_replaces_and_restarts
    ⟨⟨none, false, none, false, none, false, none, false⟩, [(none, 4)],
      some 0, true⟩ 1
    ⟨some (PyChar.pint 1), false, some (PyChar.pint 2), false,
      some (PyChar.pint 3), false, some (PyChar.pint 4), true⟩
    (by decide)).2.2.2]
  rfl

/-- C9 counterexample: the four-digit display's aggregate `State`
constructor accepts the undisplayable character `'Z'` without any error
(construction succeeds, so no fail-fast happens before a commit), whereas
the single-digit `State` constructor rejects the same character with the
invalid-value error. -/
theorem fourDigit_state_init_accepts_invalid :
    FourDigitState.init (some (PyChar.pstr "Z")) false none false none false
        none false
      = Except.ok ⟨some (PyChar.pstr "Z"), false, none, false, none, false,
          none, false⟩ ∧
    (CHARACTER_SEGMENTS.lookup (PyChar.pstr "Z")).isSome = false ∧
    SevenSegState.init CHARACTER_SEGMENTS (some (PyChar.pstr "Z")) false
      = Except.error PyError.valueError :=
  ⟨rfl, rfl, rfl⟩

/-- C9 (amended): fail-fast construction holds for
`SevenSegmentLedShiftRegister.State` (an unknown character raises the
invalid-value error at construction), but not for the four-digit display's
aggregate `State`, whose constructor validates nothing and succeeds on every
input; an invalid character in the aggregate surfaces only later, when the
refresh loop renders it. -/
theorem state_init_validation_asymmetry :
    (∀ ch dp, CHARACTER_SEGMENTS.lookup ch = none →
      SevenSegState.init CHARACTER_SEGMENTS (some ch) dp
        = Except.error PyError.valueError) ∧
    (∀ c0 d0 c1 d1 c2 d2 c3 d3,
      FourDigitState.init c0 d0 c1 d1 c2 d2 c3 d3
        = Except.ok ⟨c0, d0, c1, d1, c2, d2, c3, d3⟩) := by
  constructor
  · intro ch dp h
    simp [SevenSegState.init, h]
  · intro c0 d0 c1 d1 c2 d2 c3 d3
    rfl

/-- Witness for C9's amended theorem at the concrete character `'Z'`. -/
theorem state_init_validation_asymmetry_witness :
    SevenSegState.init CHARACTER_SEGMENTS (some (PyChar.pstr "Z")) false
      = Except.error PyError.valueError :=
  state_init_validation_asymmetry.1 (PyChar.pstr "Z") false rfl

/-- Updating every entry of key `ch` in an association list and then looking
`ch` up yields the updated first binding. -/
theorem lookup_map_update (cs : List (PyChar × List Segment)) (ch : PyChar)
    (f : List Segment → List Segment) (l : List Segment)
    (h : cs.lookup ch = some l) :
    (cs.map (fun p =>
      if p.1 == ch then (p.1, f p.2) else p)).lookup ch = some (f l) := by
  induction cs with
  | nil => simp [List.lookup] at h
  | cons kv rest ih =>
    obtain ⟨k, v⟩ := kv
    by_cases hk : k = ch
    · have hbe : (ch == k) = true := by simp [hk]
      rw [List.lookup_cons] at h
      simp only [hbe] at h
      simp only [Option.some.injEq] at h
      simp [List.map_cons, List.lookup_cons, hbe, h, hk]
    · have hbe : (ch == k) = false :=
        beq_eq_false_iff_ne.mpr (fun he => hk he.symm)
      have hbe2 : (k == ch) = false := beq_eq_false_iff_ne.mpr hk
      rw [List.lookup_cons] at h
      simp only [hbe] at h
      have hrest := ih h
      simp only [List.map_cons, hbe2, Bool.false_eq_true, if_false,
        List.lookup_cons, hbe]
      exact hrest

/-- C10: rendering a character with the decimal point appends
`DECIMAL_POINT` to the class-level `CHARACTER_SEGMENTS` entry for that
character (the dict's stored list object is mutated in place), so a later
`set_state` for the same character — on any instance, since the dict is
class-level — renders the decimal point even though the later state's
`decimal_point` flag is false. -/
theorem seven_seg_decimal_point_leaks (cs : List (PyChar × List Segment))
    (c c₂ : SevenSegObj) (ch : PyChar) (l : List Segment)
    (h : cs.lookup ch = some l) :
    ∃ r1, SevenSegmentLedShiftRegister.set_state cs c ⟨some ch, true⟩
        = Except.ok r1 ∧
      r1.charSegs.lookup ch = some (l ++ [Segment.DECIMAL_POINT]) ∧
      ∃ r2, SevenSegmentLedShiftRegister.set_state r1.charSegs c₂
          ⟨some ch, false⟩ = Except.ok r2 ∧
        Segment.DECIMAL_POINT ∈ r2.rendered := by
  have hl1 := lookup_map_update cs ch
    (fun l2 => l2 ++ [Segment.DECIMAL_POINT]) l h
  refine ⟨⟨cs.map (fun p =>
      if p.1 == ch then (p.1, p.2 ++ [Segment.DECIMAL_POINT]) else p),
    c, [], l ++ [Segment.DECIMAL_POINT],
    bitStringInt c.bits ((l ++ [Segment.DECIMAL_POINT]).map
      c.segment_shift_register_output)⟩, ?_, ?_, ?_⟩
  · simp [SevenSegmentLedShiftRegister.set_state, h]
  · exact hl1
  · refine ⟨⟨cs.map (fun p =>
        if p.1 == ch then (p.1, p.2 ++ [Segment.DECIMAL_POINT]) else p),
      c₂, [], l ++ [Segment.DECIMAL_POINT],
      bitStringInt c₂.bits ((l ++ [Segment.DECIMAL_POINT]).map
        c₂.segment_shift_register_output)⟩, ?_, ?_⟩
    · have hl2 : List.lookup ch (List.map (fun p =>
          if p.1 = ch then (p.1, p.2 ++ [Segment.DECIMAL_POINT]) else p) cs)
          = some (l ++ [Segment.DECIMAL_POINT]) := by simpa using hl1
      simp [SevenSegmentLedShiftRegister.set_state, hl2]
    · simp

/-- Witness for C10: display `7.` once, then displaying plain `7` (on any
instance) still renders the decimal point. -/
theorem seven_seg_decimal_point_leaks_witness :
    ∃ r1, SevenSegmentLedShiftRegister.set_state CHARACTER_SEGMENTS
        sevenSegExample ⟨some (PyChar.pint 7), true⟩ = Except.ok r1 ∧
      r1.charSegs.lookup (PyChar.pint 7)
        = some ([Segment.A, Segment.B, Segment.C]
            ++ [Segment.DECIMAL_POINT]) ∧
      ∃ r2, SevenSegmentLedShiftRegister.set_state r1.charSegs
          sevenSegExample ⟨some (PyChar.pint 7), false⟩ = Except.ok r2 ∧
        Segment.DECIMAL_POINT ∈ r2.rendered :=
  seven_seg_decimal_point_leaks CHARACTER_SEGMENTS sevenSegExample
    sevenSegExample (PyChar.pint 7) [Segment.A, Segment.B, Segment.C] rfl
